import Mathlib

/-!
Shallow embedding of the context-propagation core of an OpenTelemetry API
crate: trace/span identifiers, trace options, trace state (builder),
span context, resources and distributed-context entries, together with
theorems settling the specification claims about them.

Rust panics raised by `assert!` during validation are modelled as
`Except.error`; machine integers (`u128`, `u64`, `u8`) are modelled as
`Nat` values (all operations used here stay within range, no overflow
occurs); Rust `String`/`Cow<str>` is modelled as Lean `String`, with
`value.len()` (UTF-8 byte length) modelled by `utf8Len` and
`value.chars()` by the list `String.data` of unicode scalar values.
-/

set_option autoImplicit false
set_option maxRecDepth 8192

namespace Otel

/-- The two failure modes of the core: grammar violations and the
trace-state capacity ceiling. -/
inductive OtelError
  | validationError
  | capacityError
deriving DecidableEq

/-- Result type for the fallible constructors/validators (Rust `assert!`
panics become `Except.error`). -/
abbrev Validated (α : Type) := Except OtelError α

/-- Decidable equality of results, so that concrete runs of the
embedded operations can be checked by evaluation. -/
def exceptDecEq {ε α : Type} [DecidableEq ε] [DecidableEq α] :
    DecidableEq (Except ε α)
  | .ok a, .ok b =>
    match decEq a b with
    | isTrue h => isTrue (h ▸ rfl)
    | isFalse h => isFalse (fun hc => h (by cases hc; rfl))
  | .ok _, .error _ => isFalse (fun hc => Except.noConfusion hc)
  | .error _, .ok _ => isFalse (fun hc => Except.noConfusion hc)
  | .error e, .error f =>
    match decEq e f with
    | isTrue h => isTrue (h ▸ rfl)
    | isFalse h => isFalse (fun hc => h (by cases hc; rfl))

instance {ε α : Type} [DecidableEq ε] [DecidableEq α] : DecidableEq (Except ε α) :=
  exceptDecEq

/-- Rust `char::is_ascii_control`: U+0000..U+001F or U+007F. -/
def isAsciiControl (c : Char) : Bool :=
  c.toNat ≤ 0x1F || c.toNat == 0x7F

/-- Rust `char::is_ascii`: code point at most U+007F. -/
def isAscii (c : Char) : Bool :=
  c.toNat ≤ 0x7F

/-- Rust `char::is_ascii_lowercase`: in the range 'a'..='z'. -/
def isAsciiLowercase (c : Char) : Bool :=
  0x61 ≤ c.toNat && c.toNat ≤ 0x7A

/-- Rust `char::is_ascii_digit`: in the range '0'..='9'. -/
def isAsciiDigit (c : Char) : Bool :=
  0x30 ≤ c.toNat && c.toNat ≤ 0x39

/-- Rust `str::len`: the UTF-8 byte length of the string. -/
def utf8Len (s : String) : Nat :=
  s.utf8ByteSize

/-- `rand::Rng::gen_range(low, high)`: a value uniformly drawn from the
half-open interval `[low, high)`; the draw is modelled by an arbitrary
natural `r` supplied by the caller's random source. -/
def gen_range (low high r : Nat) : Nat :=
  low + r % (high - low)

/-- Digit character for one hex nibble, lowercase ('0'-'9', 'a'-'f'),
as produced by Rust's LowerHex formatting. -/
def hexDigitChar (n : Nat) : Char :=
  if n < 10 then Char.ofNat (0x30 + n) else Char.ofNat (0x61 + (n - 10))

/-- Fuel-driven most-significant-first hex digit expansion; any
`fuel > n` is enough. -/
def natToHexAux : Nat → Nat → List Char
  | 0, _ => []
  | fuel + 1, n =>
    if n < 16 then [hexDigitChar n]
    else natToHexAux fuel (n / 16) ++ [hexDigitChar (n % 16)]

/-- Rust `format!` with the LowerHex spec `x` (no width, no fill):
minimal-width lowercase base-16 rendering; the value 0 renders as "0". -/
def natToHex (n : Nat) : String :=
  ⟨natToHexAux (n + 1) n⟩

/-- `TraceId(u128)`: a 128-bit trace identifier. -/
structure TraceId where
  val : Nat
deriving DecidableEq

namespace TraceId

/-- `const INVALID: TraceId = TraceId(0)`. -/
def INVALID : TraceId := ⟨0⟩

/-- `TraceId::get_invalid`. -/
def get_invalid : TraceId := INVALID

/-- `TraceId::is_valid`: the source compares `*self == INVALID`
(structural equality against the all-zero sentinel). -/
def is_valid (t : TraceId) : Bool :=
  t = INVALID

/-- `TraceId::generate_random_id`: `rng.gen_range(1u128, u128::MAX)`,
i.e. a draw from `[1, 2^128 - 1)`. -/
def generate_random_id (r : Nat) : TraceId :=
  ⟨gen_range 1 (2 ^ 128 - 1) r⟩

/-- `TraceId::as_hex`: `format!` of the raw value with the LowerHex
spec `x`. -/
def as_hex (t : TraceId) : String :=
  natToHex t.val

end TraceId

/-- `SpanId(u64)`: a 64-bit span identifier. -/
structure SpanId where
  val : Nat
deriving DecidableEq

namespace SpanId

/-- `const INVALID: SpanId = SpanId(0)`. -/
def INVALID : SpanId := ⟨0⟩

/-- `SpanId::invalid`. -/
def invalid : SpanId := INVALID

/-- `SpanId::new`. -/
def new (id : Nat) : SpanId := ⟨id⟩

/-- `SpanId::is_valid`: the source compares `*self == INVALID`
(structural equality against the all-zero sentinel). -/
def is_valid (s : SpanId) : Bool :=
  s = INVALID

/-- `SpanId::generate_random_id`: `rng.gen_range(1u64, u64::MAX)`,
i.e. a draw from `[1, 2^64 - 1)`. -/
def generate_random_id (r : Nat) : SpanId :=
  ⟨gen_range 1 (2 ^ 64 - 1) r⟩

/-- `SpanId::as_hex`: `format!` of the raw value with the LowerHex
spec `x`. -/
def as_hex (s : SpanId) : String :=
  natToHex s.val

end SpanId

/-- `trace_state::Entry`: one key/value pair of a `TraceState`. -/
structure Entry where
  key : String
  value : String
deriving DecidableEq

/-- `const MAX_KEY_LEN: usize = 255`. -/
def MAX_KEY_LEN : Nat := 255

/-- `const MAX_VAL_LEN: usize = 255`. -/
def MAX_VAL_LEN : Nat := 255

/-- `const MAX_KEY_VALUE_PAIRS: usize = 32`. -/
def MAX_KEY_VALUE_PAIRS : Nat := 32

/-- The per-character predicate of `validate_key`:
`c.is_ascii_lowercase() || c.is_ascii_digit() || c == '_' || c == '-'
|| c == '*' || c == '/'`. -/
def isKeyChar (c : Char) : Bool :=
  isAsciiLowercase c || isAsciiDigit c || c == '_' || c == '-' || c == '*' || c == '/'

/-- `trace_state::validate_key`: asserts, in source order, length at
most `MAX_KEY_LEN`, non-emptiness, a lowercase first character, and the
key alphabet for every character; returns the key unchanged on
success. -/
def validate_key (key : String) : Validated String :=
  if utf8Len key ≤ MAX_KEY_LEN then
    match key.data with
    | [] => .error .validationError
    | c :: _ =>
      if isAsciiLowercase c then
        if key.data.all isKeyChar then .ok key
        else .error .validationError
      else .error .validationError
  else .error .validationError

/-- The per-character condition asserted by `validate_value`, verbatim
from the source: `!c.is_ascii_control() || c != ',' || c != '='`. -/
def isValueCheckedChar (c : Char) : Bool :=
  !isAsciiControl c || c != ',' || c != '='

/-- `trace_state::validate_value`: asserts length at most `MAX_VAL_LEN`
and then `value.chars().all(isValueCheckedChar)`; returns the value
unchanged on success. -/
def validate_value (value : String) : Validated String :=
  if utf8Len value ≤ MAX_VAL_LEN then
    if value.data.all isValueCheckedChar then .ok value
    else .error .validationError
  else .error .validationError

/-- `TraceState`: the ordered entry list. -/
structure TraceState where
  entries : List Entry
deriving DecidableEq

/-- `TraceState::new`: `assert!(entries.len() <= MAX_KEY_VALUE_PAIRS)`
then wrap the entries. -/
def TraceState.new (entries : List Entry) : Validated TraceState :=
  if entries.length ≤ MAX_KEY_VALUE_PAIRS then .ok ⟨entries⟩
  else .error .capacityError

/-- `TraceState::get`: first entry whose key matches. -/
def TraceState.get (ts : TraceState) (key : String) : Option Entry :=
  ts.entries.find? (fun x => x.key == key)

/-- `TraceStateBuilder`: optional parent plus optional materialized
edit list. -/
structure TraceStateBuilder where
  parent : Option TraceState
  entries : Option (List Entry)
deriving DecidableEq

/-- `TraceStateBuilder::builder`: the default builder (no parent, no
materialized entries). -/
def TraceStateBuilder.builder : TraceStateBuilder := ⟨none, none⟩

/-- The list the builder edits:
`self.entries.get_or_insert(self.parent.map_or(vec![], |x| x.entries.clone()))`
— the materialized entries if present, else a copy of the parent's
entries (or an empty list with no parent). -/
def TraceStateBuilder.currentEntries (b : TraceStateBuilder) : List Entry :=
  match b.entries with
  | some es => es
  | none =>
    match b.parent with
    | none => []
    | some p => p.entries

/-- `TraceStateBuilder::set`: materialize the edit list, validate key
and value, drop every entry with the given key (`retain`), and insert
the new entry at position 0. -/
def TraceStateBuilder.set (b : TraceStateBuilder) (key value : String) :
    Validated TraceStateBuilder := do
  let es := b.currentEntries
  let key ← validate_key key
  let value ← validate_value value
  pure { b with entries := some (⟨key, value⟩ :: es.filter (fun x => x.key != key)) }

/-- `TraceStateBuilder::remove`: validate the key, then drop every
entry with that key from the materialized edit list. -/
def TraceStateBuilder.remove (b : TraceStateBuilder) (key : String) :
    Validated TraceStateBuilder := do
  let key ← validate_key key
  pure { b with entries := some (b.currentEntries.filter (fun x => x.key != key)) }

/-- `TraceStateBuilder::build`: finalize into a `TraceState` via
`TraceState::new` (which enforces the 32-entry cap), using the
materialized entries or, if never materialized, a copy of the parent's
entries. -/
def TraceStateBuilder.build (b : TraceStateBuilder) : Validated TraceState :=
  match b.entries with
  | none =>
    TraceState.new
      (match b.parent with
       | none => []
       | some p => p.entries)
  | some values => TraceState.new values

/-- Test scaffolding: chain `set` over a list of key/value pairs. -/
def TraceStateBuilder.setAll : TraceStateBuilder → List (String × String) →
    Validated TraceStateBuilder
  | b, [] => pure b
  | b, kv :: rest => do
    let b' ← b.set kv.1 kv.2
    b'.setAll rest

/-- Test scaffolding: 33 distinct valid entries ("k0" .. "k32"). -/
def pairs33 : List (String × String) :=
  (List.range 33).map (fun i => ("k" ++ toString i, "v"))

/-- `internal::MAX_LEN`: 255. -/
def MAX_LEN : Nat := 255

/-- `internal::validate_and_convert_str`: asserts the UTF-8 byte length
is STRICTLY below `MAX_LEN` (`to_ret.len() < MAX_LEN`), then that every
character is ASCII and not a control character; returns the string
unchanged on success. Note: no non-emptiness check. -/
def validate_and_convert_str (to_check : String) : Validated String :=
  if utf8Len to_check < MAX_LEN then
    if to_check.data.all (fun x => !isAsciiControl x && isAscii x) then .ok to_check
    else .error .validationError
  else .error .validationError

/-- Modelled from the spec's words (refinement target, not source
code): a string that is ASCII, contains no control characters, and is
strictly less than 255 bytes long. -/
def specValidAsciiString (s : String) : Prop :=
  utf8Len s < 255 ∧ ∀ c ∈ s.data, c.toNat ≤ 0x7F ∧ ¬ (c.toNat ≤ 0x1F ∨ c.toNat = 0x7F)

/-- `Resource`: the label map; the `HashMap` is modelled as an
association list with unique keys, read through `lookupLabel`. -/
structure Resource where
  labels : List (String × String)
deriving DecidableEq

/-- `HashMap` lookup on the association-list model: the value of the
first pair carrying the given key. -/
def lookupLabel : List (String × String) → String → Option String
  | [], _ => none
  | kv :: rest, key => if kv.1 = key then some kv.2 else lookupLabel rest key

/-- `HashMap` in-place overwrite of the value stored under an existing
key (`Entry::Occupied(mut e) => e.insert(value)`) on the
association-list model. -/
def updateLabel : List (String × String) → String → String → List (String × String)
  | [], _, _ => []
  | kv :: rest, key, nv =>
    if kv.1 = key then (kv.1, nv) :: rest
    else kv :: updateLabel rest key nv

/-- One iteration of the `for_each` in `Resource::merge`: a vacant key
is inserted with `other`'s value, a key holding the empty string is
overwritten with `other`'s value, any other key keeps `self`'s
value. -/
def mergeStep (labels : List (String × String)) (kv : String × String) :
    List (String × String) :=
  match lookupLabel labels kv.1 with
  | none => labels ++ [kv]
  | some v => if v = "" then updateLabel labels kv.1 kv.2 else labels

namespace Resource

/-- `Resource::new`. -/
def new (labels : List (String × String)) : Resource := ⟨labels⟩

/-- `Resource::create`: run every key and value through
`validate_and_convert_str` and collect the results; any failure aborts
the whole construction. -/
def create (labels : List (String × String)) : Validated Resource := do
  let validated ← labels.mapM (fun kv => do
    let k ← validate_and_convert_str kv.1
    let v ← validate_and_convert_str kv.2
    pure (k, v))
  pure (new validated)

/-- `Resource::merge`: fold the per-pair rule over `other`'s labels. -/
def merge (self other : Resource) : Resource :=
  ⟨other.labels.foldl mergeStep self.labels⟩

/-- `Resource::get`. -/
def get (r : Resource) (label : String) : Option String :=
  lookupLabel r.labels label

/-- `Resource::empty`. -/
def empty : Resource := ⟨[]⟩

end Resource

namespace Dc

/-- `distributedcontext::entry::EntryKey`. -/
structure EntryKey where
  name : String
deriving DecidableEq

/-- `EntryKey::new`: `EntryKey(validate_and_convert_str(name))`. -/
def EntryKey.new (name : String) : Validated EntryKey := do
  pure ⟨← validate_and_convert_str name⟩

/-- `distributedcontext::entry::EntryValue`. -/
structure EntryValue where
  name : String
deriving DecidableEq

/-- `EntryValue::new`: `EntryValue(validate_and_convert_str(name))`. -/
def EntryValue.new (name : String) : Validated EntryValue := do
  pure ⟨← validate_and_convert_str name⟩

/-- `EntryTtl`: hop-count time-to-live of a distributed-context
entry. -/
inductive EntryTtl
  | NoPropagation
  | Propagation (hops : Nat)
  | UnlimitedPropagation
deriving DecidableEq

/-- `EntryMetadata`: wraps an `EntryTtl`, with no validation. -/
structure EntryMetadata where
  ttl : EntryTtl
deriving DecidableEq

/-- `EntryMetadata::new`: plain wrapping, infallible. -/
def EntryMetadata.new (ttl : EntryTtl) : EntryMetadata := ⟨ttl⟩

/-- `distributedcontext::entry::Entry`. -/
structure Entry where
  key : EntryKey
  value : EntryValue
  metadata : EntryMetadata
deriving DecidableEq

/-- `Entry::new`: plain bundling of already-constructed parts,
infallible. -/
def Entry.new (key : EntryKey) (value : EntryValue) (metadata : EntryMetadata) :
    Entry :=
  ⟨key, value, metadata⟩

end Dc

/-- `TraceOptions`: the 8-bit flag set produced by the bitflags macro
(`bits: u8`). -/
structure TraceOptions where
  bits : Nat
deriving DecidableEq

namespace TraceOptions

/-- `DEFAULT_OPTIONS = 0b00000000`. -/
def DEFAULT_OPTIONS : TraceOptions := ⟨0⟩

/-- `IS_SAMPLED = 0b00000001`. -/
def IS_SAMPLED : TraceOptions := ⟨1⟩

/-- The `Default` impl: `DEFAULT_OPTIONS`. -/
def getDefault : TraceOptions := DEFAULT_OPTIONS

end TraceOptions

/-- `SpanContext`: the immutable bundle of trace id, span id, options
and trace state. -/
structure SpanContext where
  trace_id : TraceId
  span_id : SpanId
  options : TraceOptions
  state : TraceState
deriving DecidableEq

/-- The derived `PartialEq` of `SpanContext`: field-wise structural
equality over all four declared fields. -/
def SpanContext.beq (a b : SpanContext) : Bool :=
  decide (a.trace_id = b.trace_id) && decide (a.span_id = b.span_id)
    && decide (a.options = b.options) && decide (a.state = b.state)

/-- Lexicographic comparison of lists by an element comparison (Rust's
derived `Ord` for `Vec<T>`). -/
def listCmp {α : Type} (f : α → α → Ordering) : List α → List α → Ordering
  | [], [] => .eq
  | [], _ :: _ => .lt
  | _ :: _, [] => .gt
  | a :: as, b :: bs => (f a b).then (listCmp f as bs)

/-- Rust `str` ordering: lexicographic over the character sequence
(byte-wise UTF-8 order coincides with scalar-value order). -/
def stringCmp (a b : String) : Ordering :=
  listCmp (fun c d => compare c.toNat d.toNat) a.data b.data

/-- Derived `Ord` for trace-state `Entry`: key, then value. -/
def Entry.cmp (a b : Entry) : Ordering :=
  (stringCmp a.key b.key).then (stringCmp a.value b.value)

/-- Derived `Ord` for `TraceState`: lexicographic over the entry
list. -/
def TraceState.cmp (a b : TraceState) : Ordering :=
  listCmp Entry.cmp a.entries b.entries

/-- The derived `Ord` of `SpanContext`: lexicographic over the four
fields in declaration order — the trace state participates. -/
def SpanContext.cmp (a b : SpanContext) : Ordering :=
  (compare a.trace_id.val b.trace_id.val).then
    ((compare a.span_id.val b.span_id.val).then
      ((compare a.options.bits b.options.bits).then
        (TraceState.cmp a.state b.state)))

/-- The stream of values the derived `Hash` of `SpanContext` feeds to
the hasher: every field is written, the trace state included (strings
are written length-prefixed, as Rust's `Hash for str` does; the entry
list is written length-prefixed, as `Hash for Vec` does). -/
def SpanContext.hashInput (c : SpanContext) : List Nat :=
  [c.trace_id.val, c.span_id.val, c.options.bits, c.state.entries.length]
    ++ (c.state.entries.map fun e =>
         [utf8Len e.key] ++ e.key.data.map Char.toNat
           ++ [utf8Len e.value] ++ e.value.data.map Char.toNat).flatten

/-- A lowercase hexadecimal digit: '0'-'9' or 'a'-'f'. -/
def isLowerHexDigit (c : Char) : Bool :=
  isAsciiDigit c || (0x61 ≤ c.toNat && c.toNat ≤ 0x66)

theorem hexDigitChar_isLowerHexDigit (n : Nat) (h : n < 16) :
    isLowerHexDigit (hexDigitChar n) = true := by
  interval_cases n <;> decide

theorem natToHexAux_length (fuel : Nat) :
    ∀ n : Nat, n < fuel → (natToHexAux fuel n).length = Nat.log 16 n + 1 := by
  induction fuel with
  | zero => intro n h; omega
  | succ fuel ih =>
    intro n h
    by_cases hn : n < 16
    · have hlog : Nat.log 16 n = 0 := Nat.log_eq_zero_iff.mpr (Or.inl hn)
      simp [natToHexAux, hn, hlog]
    · have hpos : 0 < n := by omega
      have hdiv : n / 16 < fuel :=
        lt_of_lt_of_le (Nat.div_lt_self hpos (by omega)) (by omega)
      have hlogpos : 0 < Nat.log 16 n := Nat.log_pos (by omega) (by omega)
      have hdb : Nat.log 16 (n / 16) = Nat.log 16 n - 1 := Nat.log_div_base 16 n
      simp only [natToHexAux, if_neg hn, List.length_append, List.length_cons,
        List.length_nil, ih (n / 16) hdiv, hdb]
      omega

theorem natToHexAux_lowerHex (fuel : Nat) :
    ∀ n : Nat, n < fuel → ∀ c ∈ natToHexAux fuel n, isLowerHexDigit c = true := by
  induction fuel with
  | zero => intro n h; omega
  | succ fuel ih =>
    intro n h c hc
    by_cases hn : n < 16
    · simp only [natToHexAux, if_pos hn, List.mem_singleton] at hc
      exact hc ▸ hexDigitChar_isLowerHexDigit n hn
    · have hpos : 0 < n := by omega
      have hdiv : n / 16 < fuel :=
        lt_of_lt_of_le (Nat.div_lt_self hpos (by omega)) (by omega)
      simp only [natToHexAux, if_neg hn, List.mem_append, List.mem_singleton] at hc
      rcases hc with hc | hc
      · exact ih (n / 16) hdiv c hc
      · exact hc ▸ hexDigitChar_isLowerHexDigit (n % 16) (Nat.mod_lt n (by omega))

/-- Claim C1: the claim says `is_valid` returns true iff the value is
non-zero; the source instead returns `*self == INVALID`, i.e. true
exactly when the value IS zero — the predicate is inverted relative to
its own doc comment. This theorem evaluates the embedded code: for
every identifier `is_valid` decides `value = 0`, so the all-zero
sentinel is reported valid and every non-zero identifier invalid. -/
theorem is_valid_decides_zero :
    (∀ t : TraceId, TraceId.is_valid t = decide (t.val = 0))
    ∧ (∀ s : SpanId, SpanId.is_valid s = decide (s.val = 0))
    ∧ TraceId.is_valid ⟨0⟩ = true ∧ TraceId.is_valid ⟨1⟩ = false
    ∧ SpanId.is_valid ⟨0⟩ = true ∧ SpanId.is_valid ⟨1⟩ = false := by
  refine ⟨fun t => ?_, fun s => ?_, by decide, by decide, by decide, by decide⟩
  · cases t; simp [TraceId.is_valid, TraceId.INVALID, TraceId.mk.injEq]
  · cases s; simp [SpanId.is_valid, SpanId.INVALID, SpanId.mk.injEq]

/-- Claim C8: `generate_random_id` draws from the half-open range
starting at 1, so for every random draw the produced identifier is
never the all-zero invalid sentinel. -/
theorem generate_random_id_never_zero :
    ∀ r : Nat,
      (TraceId.generate_random_id r).val ≠ 0
      ∧ TraceId.generate_random_id r ≠ TraceId.INVALID
      ∧ (SpanId.generate_random_id r).val ≠ 0
      ∧ SpanId.generate_random_id r ≠ SpanId.INVALID := by
  intro r
  refine ⟨?_, ?_, ?_, ?_⟩ <;>
    simp [TraceId.generate_random_id, SpanId.generate_random_id, gen_range,
      TraceId.INVALID, SpanId.INVALID, TraceId.mk.injEq, SpanId.mk.injEq]

/-- Claim C4 (counterexample): the claim says `as_hex` zero-pads to the
full width (32 hex characters for a TraceId, 16 for a SpanId); the
source formats with the bare LowerHex spec, which never pads, so the
identifier with value 1 renders as the single character "1" for both
types. -/
theorem as_hex_not_zero_padded :
    TraceId.as_hex ⟨1⟩ = "1" ∧ (TraceId.as_hex ⟨1⟩).length ≠ 32
    ∧ SpanId.as_hex ⟨1⟩ = "1" ∧ (SpanId.as_hex ⟨1⟩).length ≠ 16 := by
  refine ⟨by decide, by decide, by decide, by decide⟩

/-- Claim C4 (amended): `as_hex` returns the lowercase base-16 rendering
of the value WITHOUT zero-padding: the output has `Nat.log 16 value + 1`
characters — at most 2× the byte length for in-range values, reaching
full width exactly when the topmost nibble is non-zero — every output
character is a lowercase hex digit, and the value 0 renders as "0". -/
theorem as_hex_minimal_lowercase (t : TraceId) (s : SpanId)
    (ht : t.val < 2 ^ 128) (hs : s.val < 2 ^ 64) :
    (TraceId.as_hex t).length = Nat.log 16 t.val + 1
    ∧ (TraceId.as_hex t).length ≤ 32
    ∧ ((TraceId.as_hex t).length = 32 ↔ 16 ^ 31 ≤ t.val)
    ∧ (∀ c ∈ (TraceId.as_hex t).data, isLowerHexDigit c = true)
    ∧ (SpanId.as_hex s).length = Nat.log 16 s.val + 1
    ∧ (SpanId.as_hex s).length ≤ 16
    ∧ ((SpanId.as_hex s).length = 16 ↔ 16 ^ 15 ≤ s.val)
    ∧ (∀ c ∈ (SpanId.as_hex s).data, isLowerHexDigit c = true)
    ∧ TraceId.as_hex ⟨0⟩ = "0" := by
  have hlen_t : (TraceId.as_hex t).length = Nat.log 16 t.val + 1 := by
    show (natToHexAux (t.val + 1) t.val).length = Nat.log 16 t.val + 1
    exact natToHexAux_length (t.val + 1) t.val (Nat.lt_succ_self _)
  have hlen_s : (SpanId.as_hex s).length = Nat.log 16 s.val + 1 := by
    show (natToHexAux (s.val + 1) s.val).length = Nat.log 16 s.val + 1
    exact natToHexAux_length (s.val + 1) s.val (Nat.lt_succ_self _)
  have hpow_t : (16 : Nat) ^ 32 = 2 ^ 128 := by norm_num
  have hpow_s : (16 : Nat) ^ 16 = 2 ^ 64 := by norm_num
  have hlog_t : Nat.log 16 t.val ≤ 31 := by
    rcases Nat.eq_zero_or_pos t.val with h0 | h0
    · simp [h0]
    · have ht' : t.val < 16 ^ 32 := by rw [hpow_t]; exact ht
      have := Nat.log_lt_of_lt_pow (Nat.pos_iff_ne_zero.mp h0) ht'
      omega
  have hlog_s : Nat.log 16 s.val ≤ 15 := by
    rcases Nat.eq_zero_or_pos s.val with h0 | h0
    · simp [h0]
    · have hs' : s.val < 16 ^ 16 := by rw [hpow_s]; exact hs
      have := Nat.log_lt_of_lt_pow (Nat.pos_iff_ne_zero.mp h0) hs'
      omega
  have hiff_t : (TraceId.as_hex t).length = 32 ↔ 16 ^ 31 ≤ t.val := by
    rw [hlen_t]
    rcases Nat.eq_zero_or_pos t.val with h0 | h0
    · simp [h0]
    · rw [Nat.pow_le_iff_le_log (by omega) (Nat.pos_iff_ne_zero.mp h0)]
      omega
  have hiff_s : (SpanId.as_hex s).length = 16 ↔ 16 ^ 15 ≤ s.val := by
    rw [hlen_s]
    rcases Nat.eq_zero_or_pos s.val with h0 | h0
    · simp [h0]
    · rw [Nat.pow_le_iff_le_log (by omega) (Nat.pos_iff_ne_zero.mp h0)]
      omega
  refine ⟨hlen_t, by omega, hiff_t, ?_, hlen_s, by omega, hiff_s, ?_, by decide⟩
  · exact natToHexAux_lowerHex (t.val + 1) t.val (Nat.lt_succ_self _)
  · exact natToHexAux_lowerHex (s.val + 1) s.val (Nat.lt_succ_self _)

/-- Witness for the amended claim C4 at the concrete identifiers with
value 1 (both well inside their ranges). -/
theorem as_hex_minimal_lowercase_witness :
    (TraceId.as_hex ⟨1⟩).length = Nat.log 16 (TraceId.mk 1).val + 1
    ∧ (TraceId.as_hex ⟨1⟩).length ≤ 32
    ∧ ((TraceId.as_hex ⟨1⟩).length = 32 ↔ 16 ^ 31 ≤ (TraceId.mk 1).val)
    ∧ (∀ c ∈ (TraceId.as_hex ⟨1⟩).data, isLowerHexDigit c = true)
    ∧ (SpanId.as_hex ⟨1⟩).length = Nat.log 16 (SpanId.mk 1).val + 1
    ∧ (SpanId.as_hex ⟨1⟩).length ≤ 16
    ∧ ((SpanId.as_hex ⟨1⟩).length = 16 ↔ 16 ^ 15 ≤ (SpanId.mk 1).val)
    ∧ (∀ c ∈ (SpanId.as_hex ⟨1⟩).data, isLowerHexDigit c = true)
    ∧ TraceId.as_hex ⟨0⟩ = "0" :=
  as_hex_minimal_lowercase ⟨1⟩ ⟨1⟩ (by norm_num) (by norm_num)

/-- Claim C2: the claim says `validate_value` rejects strings containing
control characters, non-ASCII characters, ',' or '='; in the source the
per-character condition `!c.is_ascii_control() || c != ',' || c != '='`
is a tautology (no character is both ',' and '='), so the character
check never fires and `validate_value` accepts EVERY string of at most
255 bytes — including ",", "=", a control character and a non-ASCII
string — rejecting only over-length input. The source's own proptest
`test_validate_value_incorrect_alphabets` expects such inputs to be
rejected. -/
theorem validate_value_char_check_is_noop :
    (∀ c : Char, isValueCheckedChar c = true)
    ∧ (∀ v : String,
        validate_value v =
          if utf8Len v ≤ MAX_VAL_LEN then .ok v else .error .validationError)
    ∧ validate_value "," = .ok ","
    ∧ validate_value "=" = .ok "="
    ∧ validate_value "\x01" = .ok "\x01"
    ∧ validate_value "é" = .ok "é"
    ∧ validate_value ⟨List.replicate 256 'a'⟩ = .error .validationError := by
  have htaut : ∀ c : Char, isValueCheckedChar c = true := by
    intro c
    by_cases h : c = '='
    · subst h; decide
    · simp [isValueCheckedChar, bne_iff_ne.mpr h]
  refine ⟨htaut, fun v => ?_, by decide, by decide, by decide, by decide, by decide⟩
  by_cases h : utf8Len v ≤ MAX_VAL_LEN
  · simp [validate_value, h, List.all_eq_true, htaut]
  · simp [validate_value, h]

/-- Claim C5: `set` on a builder validates the key and value, removes
every existing entry with that key and inserts the new entry at the
front, so keys stay unique and the most recently set key is first; in
particular the chain set("a","1"), set("b","2"), set("a","3") builds
exactly [("a","3"), ("b","2")]. -/
theorem trace_state_builder_set_spec :
    (∀ (b : TraceStateBuilder) (k v : String),
      validate_key k = .ok k → validate_value v = .ok v →
      b.set k v =
        .ok ⟨b.parent, some (⟨k, v⟩ :: b.currentEntries.filter (fun x => x.key != k))⟩)
    ∧ (∀ (es : List Entry) (k v : String),
      (es.map Entry.key).Nodup →
      (((⟨k, v⟩ : Entry) :: es.filter (fun x => x.key != k)).map Entry.key).Nodup)
    ∧ (TraceStateBuilder.builder.set "a" "1" >>= fun b =>
        b.set "b" "2" >>= fun b =>
        b.set "a" "3" >>= TraceStateBuilder.build)
      = .ok ⟨[⟨"a", "3"⟩, ⟨"b", "2"⟩]⟩ := by
  refine ⟨fun b k v hk hv => ?_, fun es k v h => ?_, by decide⟩
  · cases b
    simp [TraceStateBuilder.set, hk, hv, TraceStateBuilder.currentEntries,
      Except.bind, bind, pure, Except.pure]
  · simp only [List.map_cons]
    refine List.nodup_cons.mpr ⟨?_, ?_⟩
    · intro hmem
      rcases List.mem_map.mp hmem with ⟨e, he, hek⟩
      exact absurd hek (bne_iff_ne.mp (List.mem_filter.mp he).2)
    · exact h.sublist (List.Sublist.map Entry.key (List.filter_sublist es))

/-- Witness for claim C5 at the concrete call set("a", "1") on the
empty builder. -/
theorem trace_state_builder_set_spec_witness :
    TraceStateBuilder.builder.set "a" "1"
      = .ok ⟨TraceStateBuilder.builder.parent,
             some (⟨"a", "1"⟩ ::
               TraceStateBuilder.builder.currentEntries.filter (fun x => x.key != "a"))⟩ :=
  trace_state_builder_set_spec.1 TraceStateBuilder.builder "a" "1" (by decide) (by decide)

/-- `build` always finalizes exactly the builder's current entry list
through `TraceState::new`. -/
theorem build_eq_new_currentEntries (b : TraceStateBuilder) :
    b.build = TraceState.new b.currentEntries := by
  cases b with
  | mk parent entries => cases entries <;> rfl

/-- Claim C6: `build` fails with the capacity error whenever the entry
list exceeds 32 entries; a successful build returns the accumulated
entries verbatim (no truncation) and therefore at most 32 of them; and
the concrete chain of 33 distinct valid `set` calls fails to build. -/
theorem trace_state_build_capacity :
    (∀ b : TraceStateBuilder, MAX_KEY_VALUE_PAIRS < b.currentEntries.length →
      b.build = .error .capacityError)
    ∧ (∀ (b : TraceStateBuilder) (ts : TraceState), b.build = .ok ts →
      ts.entries = b.currentEntries ∧ ts.entries.length ≤ MAX_KEY_VALUE_PAIRS)
    ∧ (TraceStateBuilder.builder.setAll pairs33 >>= TraceStateBuilder.build)
      = .error .capacityError := by
  refine ⟨fun b h => ?_, fun b ts h => ?_, by decide⟩
  · rw [build_eq_new_currentEntries]
    simp [TraceState.new, Nat.not_le.mpr h]
  · rw [build_eq_new_currentEntries] at h
    unfold TraceState.new at h
    split at h
    · cases h
      exact ⟨rfl, by assumption⟩
    · cases h

/-- Witness for claim C6 at a concrete builder holding 33 entries. -/
theorem trace_state_build_capacity_witness :
    TraceStateBuilder.build ⟨none, some (List.replicate 33 ⟨"a", "b"⟩)⟩
      = .error .capacityError :=
  trace_state_build_capacity.1 ⟨none, some (List.replicate 33 ⟨"a", "b"⟩)⟩ (by decide)

theorem lookupLabel_append (l1 l2 : List (String × String)) (k : String) :
    lookupLabel (l1 ++ l2) k =
      match lookupLabel l1 k with
      | some v => some v
      | none => lookupLabel l2 k := by
  induction l1 with
  | nil => simp [lookupLabel]
  | cons kv rest ih =>
    by_cases h : kv.1 = k
    · simp [lookupLabel, h]
    · simp [lookupLabel, h, ih]

theorem lookupLabel_eq_none (l : List (String × String)) (k : String)
    (h : k ∉ l.map Prod.fst) : lookupLabel l k = none := by
  induction l with
  | nil => rfl
  | cons kv rest ih =>
    simp only [List.map_cons, List.mem_cons] at h
    push_neg at h
    have h1 : ¬ kv.1 = k := fun e => h.1 e.symm
    simp [lookupLabel, h1, ih h.2]

theorem lookupLabel_update_self (l : List (String × String)) (k nv w : String)
    (h : lookupLabel l k = some w) :
    lookupLabel (updateLabel l k nv) k = some nv := by
  induction l with
  | nil => simp [lookupLabel] at h
  | cons kv rest ih =>
    by_cases hk : kv.1 = k
    · simp [updateLabel, lookupLabel, hk]
    · simp only [lookupLabel, if_neg hk] at h
      simp [updateLabel, lookupLabel, hk, ih h]

theorem lookupLabel_update_other (l : List (String × String)) (key nv k : String)
    (h : k ≠ key) :
    lookupLabel (updateLabel l key nv) k = lookupLabel l k := by
  induction l with
  | nil => rfl
  | cons kv rest ih =>
    by_cases hk : kv.1 = key
    · have h1 : ¬ key = k := fun e => h e.symm
      simp [updateLabel, lookupLabel, hk, h1]
    · simp [updateLabel, lookupLabel, hk, ih]

theorem lookupLabel_mergeStep_self (l : List (String × String))
    (kv : String × String) :
    lookupLabel (mergeStep l kv) kv.1 =
      match lookupLabel l kv.1 with
      | none => some kv.2
      | some w => if w = "" then some kv.2 else some w := by
  cases hl : lookupLabel l kv.1 with
  | none =>
    simp [mergeStep, hl, lookupLabel_append, lookupLabel]
  | some w =>
    by_cases hw : w = ""
    · simp [mergeStep, hl, hw, lookupLabel_update_self l kv.1 kv.2 "" (hw ▸ hl)]
    · simp [mergeStep, hl, hw]

theorem lookupLabel_mergeStep_other (l : List (String × String))
    (kv : String × String) (k : String) (h : k ≠ kv.1) :
    lookupLabel (mergeStep l kv) k = lookupLabel l k := by
  cases hl : lookupLabel l kv.1 with
  | none =>
    simp only [mergeStep, hl, lookupLabel_append]
    cases hk : lookupLabel l k with
    | none =>
      have h1 : ¬ kv.1 = k := fun e => h e.symm
      simp [lookupLabel, h1]
    | some v => rfl
  | some w =>
    by_cases hw : w = ""
    · simp [mergeStep, hl, hw, lookupLabel_update_other l kv.1 kv.2 k h]
    · simp [mergeStep, hl, hw]

theorem foldl_mergeStep_lookup (other : List (String × String)) :
    ∀ self : List (String × String), (other.map Prod.fst).Nodup → ∀ k : String,
    lookupLabel (other.foldl mergeStep self) k =
      match lookupLabel other k, lookupLabel self k with
      | none, o => o
      | some v, none => some v
      | some v, some w => if w = "" then some v else some w := by
  induction other with
  | nil => intro self _ k; rfl
  | cons kv rest ih =>
    intro self hnd k
    simp only [List.map_cons, List.nodup_cons] at hnd
    obtain ⟨hk0, hnd'⟩ := hnd
    simp only [List.foldl_cons]
    rw [ih (mergeStep self kv) hnd' k]
    by_cases hk : k = kv.1
    · rw [hk]
      rw [lookupLabel_eq_none rest kv.1 hk0, lookupLabel_mergeStep_self]
      simp only [lookupLabel, if_pos rfl]
      cases lookupLabel self kv.1 with
      | none => rfl
      | some w => by_cases hw : w = "" <;> simp [hw]
    · rw [lookupLabel_mergeStep_other self kv k hk]
      have h1 : ¬ kv.1 = k := fun e => hk e.symm
      simp only [lookupLabel, if_neg h1]

/-- Claim C3: `Resource::merge` follows the asymmetric per-key rule —
for a key of `other`, a vacant key in `self` takes `other`'s value, a
key holding the empty string is overwritten with `other`'s value, any
other key keeps `self`'s value; keys absent from `other` are
unchanged. -/
theorem resource_merge_rule (r1 r2 : Resource)
    (hnd : (r2.labels.map Prod.fst).Nodup) (k : String) :
    (r1.merge r2).get k =
      match r2.get k, r1.get k with
      | none, o => o
      | some v, none => some v
      | some v, some w => if w = "" then some v else some w :=
  foldl_mergeStep_lookup r2.labels r1.labels hnd k

/-- Witness for claim C3 at the spec's merge scenario:
r1 = (t1↦v1, t2↦"", t3↦v3), r2 = (t1↦should-not-merge, t2↦some_val,
t4↦v4). -/
theorem resource_merge_rule_witness :
    ((Resource.mk [("t1", "v1"), ("t2", ""), ("t3", "v3")]).merge
        ⟨[("t1", "should-not-merge"), ("t2", "some_val"), ("t4", "v4")]⟩).get "t1"
      = some "v1"
    ∧ ((Resource.mk [("t1", "v1"), ("t2", ""), ("t3", "v3")]).merge
        ⟨[("t1", "should-not-merge"), ("t2", "some_val"), ("t4", "v4")]⟩).get "t2"
      = some "some_val"
    ∧ ((Resource.mk [("t1", "v1"), ("t2", ""), ("t3", "v3")]).merge
        ⟨[("t1", "should-not-merge"), ("t2", "some_val"), ("t4", "v4")]⟩).get "t3"
      = some "v3"
    ∧ ((Resource.mk [("t1", "v1"), ("t2", ""), ("t3", "v3")]).merge
        ⟨[("t1", "should-not-merge"), ("t2", "some_val"), ("t4", "v4")]⟩).get "t4"
      = some "v4" := by
  refine ⟨?_, ?_, ?_, ?_⟩ <;>
    rw [resource_merge_rule _ _ (by decide) _] <;> decide

theorem charCheck_iff (c : Char) :
    ((!isAsciiControl c && isAscii c) = true) ↔
      (c.toNat ≤ 0x7F ∧ ¬ (c.toNat ≤ 0x1F ∨ c.toNat = 0x7F)) := by
  simp only [isAsciiControl, isAscii, Bool.and_eq_true, Bool.not_eq_true',
    Bool.or_eq_false_iff, decide_eq_false_iff_not, decide_eq_true_eq, beq_eq_false_iff_ne,
    ne_eq]
  omega

theorem validate_and_convert_str_ok_iff (s : String) :
    validate_and_convert_str s = .ok s ↔ specValidAsciiString s := by
  have hchars : (s.data.all fun x => !isAsciiControl x && isAscii x) = true ↔
      ∀ c ∈ s.data, c.toNat ≤ 0x7F ∧ ¬ (c.toNat ≤ 0x1F ∨ c.toNat = 0x7F) := by
    rw [List.all_eq_true]
    exact forall_congr' fun c => imp_congr_right fun _ => charCheck_iff c
  constructor
  · intro h
    unfold validate_and_convert_str at h
    by_cases h1 : utf8Len s < MAX_LEN
    · rw [if_pos h1] at h
      by_cases h2 : (s.data.all fun x => !isAsciiControl x && isAscii x) = true
      · exact ⟨h1, hchars.mp h2⟩
      · rw [if_neg h2] at h; cases h
    · rw [if_neg h1] at h; cases h
  · intro h
    unfold validate_and_convert_str
    have h1 : utf8Len s < MAX_LEN := h.1
    rw [if_pos h1, if_pos (hchars.mpr h.2)]

theorem validate_and_convert_str_shape (s : String) :
    validate_and_convert_str s = .ok s
    ∨ validate_and_convert_str s = .error .validationError := by
  unfold validate_and_convert_str
  by_cases h1 : utf8Len s < MAX_LEN
  · rw [if_pos h1]
    by_cases h2 : (s.data.all fun x => !isAsciiControl x && isAscii x) = true
    · rw [if_pos h2]; exact Or.inl rfl
    · rw [if_neg h2]; exact Or.inr rfl
  · rw [if_neg h1]; exact Or.inr rfl

theorem validate_and_convert_str_error_iff (s : String) :
    validate_and_convert_str s = .error .validationError ↔ ¬ specValidAsciiString s := by
  rw [← validate_and_convert_str_ok_iff]
  rcases validate_and_convert_str_shape s with h | h <;> rw [h] <;> simp

/-- Claim C7: the claim says `Resource::create` enforces non-empty,
printable-ASCII, strictly-under-256-byte keys and values. The source
validator `validate_and_convert_str` — whose module doc asks for
non-empty keys and a sub-256 limit — (a) never checks emptiness, so the
empty key/value passes, and (b) requires the byte length to be
STRICTLY below 255, rejecting 255-byte strings the claim admits. The
atomicity half is true: one bad pair fails the whole construction. -/
theorem resource_create_grammar_divergence :
    Resource.create [("", "v")] = .ok (Resource.new [("", "v")])
    ∧ validate_and_convert_str "" = .ok ""
    ∧ validate_and_convert_str ⟨List.replicate 255 'a'⟩ = .error .validationError
    ∧ Resource.create [("ok", "v"), ("é", "x")] = .error .validationError
    ∧ (∀ s : String, validate_and_convert_str s = .ok s ↔ specValidAsciiString s) :=
  ⟨by decide, by decide, by decide, by decide, validate_and_convert_str_ok_iff⟩

theorem entryKey_new_eq (s : String) :
    Dc.EntryKey.new s = (validate_and_convert_str s).map Dc.EntryKey.mk := by
  unfold Dc.EntryKey.new
  cases validate_and_convert_str s <;> rfl

theorem entryValue_new_eq (s : String) :
    Dc.EntryValue.new s = (validate_and_convert_str s).map Dc.EntryValue.mk := by
  unfold Dc.EntryValue.new
  cases validate_and_convert_str s <;> rfl

/-- Claim C9: constructing a distributed-context `EntryKey` or
`EntryValue` validates the string independently — ASCII, no control
characters, strictly under 255 bytes — failing with the validation
error otherwise, while `EntryMetadata`/`Entry` construction never
validates, accepting every `EntryTtl` variant. -/
theorem dc_entry_validation :
    (∀ s : String, Dc.EntryKey.new s = .ok ⟨s⟩ ↔ specValidAsciiString s)
    ∧ (∀ s : String,
        Dc.EntryKey.new s = .error .validationError ↔ ¬ specValidAsciiString s)
    ∧ (∀ s : String, Dc.EntryValue.new s = .ok ⟨s⟩ ↔ specValidAsciiString s)
    ∧ (∀ s : String,
        Dc.EntryValue.new s = .error .validationError ↔ ¬ specValidAsciiString s)
    ∧ (∀ t : Dc.EntryTtl, Dc.EntryMetadata.new t = ⟨t⟩)
    ∧ (∀ (k : Dc.EntryKey) (v : Dc.EntryValue) (m : Dc.EntryMetadata),
        Dc.Entry.new k v m = ⟨k, v, m⟩) := by
  refine ⟨fun s => ?_, fun s => ?_, fun s => ?_, fun s => ?_, fun t => rfl,
    fun k v m => rfl⟩
  · rw [entryKey_new_eq, ← validate_and_convert_str_ok_iff]
    rcases validate_and_convert_str_shape s with h | h <;> rw [h] <;> simp [Except.map]
  · rw [entryKey_new_eq, ← validate_and_convert_str_error_iff]
    rcases validate_and_convert_str_shape s with h | h <;> rw [h] <;> simp [Except.map, h]
  · rw [entryValue_new_eq, ← validate_and_convert_str_ok_iff]
    rcases validate_and_convert_str_shape s with h | h <;> rw [h] <;> simp [Except.map]
  · rw [entryValue_new_eq, ← validate_and_convert_str_error_iff]
    rcases validate_and_convert_str_shape s with h | h <;> rw [h] <;> simp [Except.map, h]

theorem charToNat_inj {c d : Char} (h : c.toNat = d.toNat) : c = d := by
  have h2 := congrArg Char.ofNat h
  rwa [Char.ofNat_toNat, Char.ofNat_toNat] at h2

theorem listCmp_eq_eq {α : Type} (f : α → α → Ordering)
    (hf : ∀ a b : α, f a b = .eq ↔ a = b) :
    ∀ l1 l2 : List α, listCmp f l1 l2 = .eq ↔ l1 = l2 := by
  intro l1
  induction l1 with
  | nil => intro l2; cases l2 <;> simp [listCmp]
  | cons a as ih =>
    intro l2
    cases l2 with
    | nil => simp [listCmp]
    | cons b bs =>
      simp [listCmp, Ordering.then_eq_eq, hf, ih]

theorem stringCmp_eq_eq (a b : String) : stringCmp a b = .eq ↔ a = b := by
  have hchar : ∀ c d : Char, compare c.toNat d.toNat = .eq ↔ c = d := fun c d => by
    rw [Nat.compare_eq_eq]
    exact ⟨charToNat_inj, fun h => h ▸ rfl⟩
  rw [stringCmp, listCmp_eq_eq _ hchar]
  constructor
  · intro h; cases a; cases b; exact congrArg String.mk h
  · intro h; rw [h]

theorem entry_cmp_eq_eq (a b : Entry) : Entry.cmp a b = .eq ↔ a = b := by
  cases a; cases b
  simp [Entry.cmp, Ordering.then_eq_eq, stringCmp_eq_eq, Entry.mk.injEq]

theorem traceState_cmp_eq_eq (a b : TraceState) : TraceState.cmp a b = .eq ↔ a = b := by
  cases a; cases b
  simp [TraceState.cmp, listCmp_eq_eq _ entry_cmp_eq_eq, TraceState.mk.injEq]

theorem traceId_eq_iff_val (a b : TraceId) : a = b ↔ a.val = b.val := by
  cases a; cases b; simp [TraceId.mk.injEq]

theorem spanId_eq_iff_val (a b : SpanId) : a = b ↔ a.val = b.val := by
  cases a; cases b; simp [SpanId.mk.injEq]

theorem traceOptions_eq_iff_bits (a b : TraceOptions) : a = b ↔ a.bits = b.bits := by
  cases a; cases b; simp [TraceOptions.mk.injEq]

/-- Claim C10: `SpanContext` equality, ordering and hashing are
structural over all four fields (trace id, span id, options and trace
state): two contexts are equal iff all four fields agree, the derived
ordering compares all four fields (so it reports `eq` iff they are
equal), the derived hash feeds the trace state to the hasher, and two
contexts differing only in their trace state are unequal, non-`eq`
under comparison, and hash different input streams. -/
theorem span_context_structural_over_four_fields :
    (∀ a b : SpanContext, SpanContext.beq a b = true ↔
      a.trace_id = b.trace_id ∧ a.span_id = b.span_id
        ∧ a.options = b.options ∧ a.state = b.state)
    ∧ (∀ a b : SpanContext, SpanContext.cmp a b = .eq ↔
      a.trace_id = b.trace_id ∧ a.span_id = b.span_id
        ∧ a.options = b.options ∧ a.state = b.state)
    ∧ (∀ a b : SpanContext, SpanContext.beq a b = true ↔ a = b)
    ∧ SpanContext.beq ⟨⟨1⟩, ⟨2⟩, ⟨0⟩, ⟨[]⟩⟩ ⟨⟨1⟩, ⟨2⟩, ⟨0⟩, ⟨[⟨"a", "1"⟩]⟩⟩ = false
    ∧ SpanContext.cmp ⟨⟨1⟩, ⟨2⟩, ⟨0⟩, ⟨[]⟩⟩ ⟨⟨1⟩, ⟨2⟩, ⟨0⟩, ⟨[⟨"a", "1"⟩]⟩⟩ ≠ .eq
    ∧ SpanContext.hashInput ⟨⟨1⟩, ⟨2⟩, ⟨0⟩, ⟨[]⟩⟩
        ≠ SpanContext.hashInput ⟨⟨1⟩, ⟨2⟩, ⟨0⟩, ⟨[⟨"a", "1"⟩]⟩⟩ := by
  refine ⟨fun a b => ?_, fun a b => ?_, fun a b => ?_, by decide, by decide, by decide⟩
  · simp [SpanContext.beq, and_assoc]
  · rw [SpanContext.cmp]
    simp only [Ordering.then_eq_eq, Nat.compare_eq_eq, traceState_cmp_eq_eq]
    rw [← traceId_eq_iff_val, ← spanId_eq_iff_val, ← traceOptions_eq_iff_bits]
  · cases a; cases b
    simp [SpanContext.beq, SpanContext.mk.injEq, and_assoc]

end Otel
